import Mathlib

/-!
Shallow embedding of `yolo3/train.py` (mobilenetv2-yolov3): the class
`AdvLossModel` (loss aggregation, training / validation steps, distributed
epoch runner, the `fit` orchestrator) and the learning-rate schedule
`CosineLearningRateWithLinearWarmup`.

Modelling conventions:
* Tensors that only ever flow through the core as opaque values (images,
  per-output targets and predictions, losses) are modelled as rationals `ℚ`,
  so that everything the core itself computes is exact and executable.
* The external collaborators (model forward pass, tape gradients, optimizer,
  adversarial-loss provider) are opaque function fields of a `Model`
  structure, mirroring the interface the core uses.
* IEEE float division is total; `x / 0` is non-finite (`0.0 / 0.0 = NaN`).
  We model a float division result as `Option ℚ`, with `none` standing for a
  non-finite outcome, via `floatDiv`.
* The distribution strategy is an out-of-scope collaborator; the
  `experimental_run_v2` + `reduce SUM` pair for one batch is modelled as one
  step invocation whose scalar result stands for the summed per-replica loss.
* `tf.print` progress lines and `tf.summary.image` records are modelled as
  observational outputs collected in the epoch result.
-/

namespace YoloTrain

/-- IEEE-style division: `none` models a non-finite result (`0/0` is `NaN`,
`x/0` is `±inf`); otherwise the exact quotient. -/
def floatDiv (a b : ℚ) : Option ℚ :=
  if b = 0 then none else some (a / b)

/-- A per-output loss function `loss_object(y_true, y_pred)`. -/
abbrev LossFn := ℚ → ℚ → ℚ

/-- One batch `(images, y_trues)` as destructured by `_train_step` /
`_val_step`. -/
abbrev Batch := ℚ × List ℚ

/-- The external-collaborator surface of the Keras model used by the core:
`self(images, training=...)`, `self.loss`, `tape_w.gradient`,
`self.optimizer.apply_gradients`, and `nsl.keras.adversarial_loss`.
All are opaque functions; the core never looks inside them. -/
structure Model where
  /-- `self(images, training=flag)`: params → images → training flag →
  ordered predictions. -/
  forward : List ℚ → ℚ → Bool → List ℚ
  /-- `self.loss`: the model's ordered list of per-output loss functions. -/
  lossFns : List LossFn
  /-- `tape_w.gradient(loss, trainable_variables)`: params → batch → loss →
  gradients. -/
  gradient : List ℚ → Batch → ℚ → List ℚ
  /-- `self.optimizer.apply_gradients(zip(gradients, trainable_variables))`:
  params → gradients → updated params. -/
  applyGradients : List ℚ → List ℚ → List ℚ
  /-- `nsl.keras.adversarial_loss(images, y_trues, self, ..., labeled_loss,
  ...)`: images → targets → labeled loss → adversarial loss term. -/
  advLoss : ℚ → List ℚ → ℚ → ℚ

/-- `nsl.configs.make_adv_reg_config(...)` fields used by the core. -/
structure AdvConfig where
  multiplier : ℚ
  advStepSize : ℚ
  advGradNorm : String
deriving DecidableEq

/-- The default `adv_config` of `fit`:
`make_adv_reg_config(multiplier=0.2, adv_step_size=0.2,
adv_grad_norm='infinity')`. -/
def defaultAdvConfig : AdvConfig :=
  { multiplier := 2/10, advStepSize := 2/10, advGradNorm := "infinity" }

/-- `AdvLossModel._compute_total_loss(y_trues, y_preds, sample_weights=None)`:
`loss = 0`, then `for y_true, y_pred, loss_object in zip(y_trues, y_preds,
self.loss): loss += loss_object(y_true, y_pred)`.  Python `zip` truncates to
the shortest of the three sequences.  `sampleWeights` is accepted and unused,
exactly as in the source. -/
def computeTotalLoss (m : Model) (yTrues yPreds : List ℚ)
    (sampleWeights : Option (List ℚ)) : ℚ :=
  ((yTrues.zip (yPreds.zip m.lossFns)).map
    (fun z => z.2.2 z.1 z.2.1)).foldl (· + ·) 0

/-- Modelled from the spec: "given three same-length ordered sequences ...
returns the sum of per-output losses.  Fails (length-mismatch error) if the
sequences differ in length."  `none` is the length-mismatch failure.  This is
the spec's aggregator, kept for comparison with `computeTotalLoss` above,
which is the source's. -/
def computeTotalLossSpec (m : Model) (yTrues yPreds : List ℚ) : Option ℚ :=
  if yTrues.length = yPreds.length ∧ yPreds.length = m.lossFns.length then
    some (computeTotalLoss m yTrues yPreds none)
  else
    none

/-- The list of individual per-output loss terms actually summed by
`computeTotalLoss` (one per element of the truncating three-way zip). -/
def lossTerms (m : Model) (yTrues yPreds : List ℚ) : List ℚ :=
  (yTrues.zip (yPreds.zip m.lossFns)).map (fun z => z.2.2 z.1 z.2.1)

/-- The mutable tensor state owned by the model instance: its trainable
variables and the EMA shadow variables living in the process. -/
structure TrainState where
  params : List ℚ
  emaShadow : List ℚ
deriving DecidableEq

/-- The `self.*` configuration fields that `fit` stores before running
(`self.writer`, `self.use_ema`, `self.use_adv`, `self.adv_config`), as read
by the step executor and the epoch runner.  `writer` is the presence of a
summary writer (`self.writer is not None`). -/
structure RunConfig where
  writer : Bool
  useEma : Bool
  useAdv : Bool
  advConfig : AdvConfig
deriving DecidableEq

/-- Decay constant of the per-step EMA:
`tf.train.ExponentialMovingAverage(decay=0.9999, zero_debias=True)`. -/
def emaDecay : ℚ := 9999 / 10000

/-- Effect of constructing a NEW `tf.train.ExponentialMovingAverage` object
and calling `apply` once on `vars`, as `_train_step` does each call: the
freshly created shadow variable starts at `0`, one decayed update moves it to
`0 * decay + v * (1 - decay)`, and zero-debiasing divides by the first-step
bias factor `1 - decay ^ 1`.  (Net effect: the shadow equals the current
variable — no history, because the accumulator was just created.) -/
def emaFreshApply (vars : List ℚ) : List ℚ :=
  vars.map (fun v => (0 * emaDecay + v * (1 - emaDecay)) / (1 - emaDecay))

/-- `AdvLossModel._train_step(inputs)`: destructure the batch; under the
parameter tape compute the total loss (with the adversarial term added when
`self.use_adv`); take gradients of the loss w.r.t. the trainable variables;
apply them through the optimizer; if `self.use_ema`, construct a fresh
`ExponentialMovingAverage` and apply it to the (updated) trainable variables,
ordered after the optimizer op by `tf.control_dependencies`.  Returns the
updated state and the loss scalar. -/
def trainStep (m : Model) (cfg : RunConfig) (st : TrainState) (b : Batch) :
    TrainState × ℚ :=
  let images := b.1
  let yTrues := b.2
  let loss :=
    if cfg.useAdv then
      let yPreds := m.forward st.params images true
      let base := computeTotalLoss m yTrues yPreds none
      let adv := m.advLoss images yTrues base
      base + cfg.advConfig.multiplier * adv
    else
      let yPreds := m.forward st.params images true
      computeTotalLoss m yTrues yPreds none
  let gradients := m.gradient st.params b loss
  let params2 := m.applyGradients st.params gradients
  let shadow2 := if cfg.useEma then emaFreshApply params2 else st.emaShadow
  (⟨params2, shadow2⟩, loss)

/-- `AdvLossModel._val_step(inputs)`: forward pass with `training=False`,
base loss via `_compute_total_loss`, return the loss.  No tape, no optimizer,
no EMA; the state is passed through untouched. -/
def valStep (m : Model) (st : TrainState) (b : Batch) : TrainState × ℚ :=
  let yPreds := m.forward st.params b.1 false
  (st, computeTotalLoss m b.2 yPreds none)

/-- Result of `_distributed_epoch`: final tensor state, the returned
`total_loss / num_batches` (float semantics, `none` = non-finite), the
`tf.print` progress trail `(num_batches, total_loss / num_batches)`, and the
number of `tf.summary.image` records written. -/
structure EpochResult where
  st : TrainState
  meanLoss : Option ℚ
  progress : List (ℚ × Option ℚ)
  summaries : ℕ
deriving DecidableEq

/-- The batch loop of `_distributed_epoch`: threads the model state, the
running `total_loss` and the float `num_batches` counter through the dataset,
dispatching `_train_step` when `step` is true and `_val_step` otherwise (via
the distribution strategy, whose summed per-replica reduction is the step's
scalar), and records each `tf.print(num_batches, ':', total/num)` line. -/
def epochLoop (m : Model) (cfg : RunConfig) (step : Bool) :
    TrainState → ℚ → ℚ → List Batch → TrainState × ℚ × ℚ × List (ℚ × Option ℚ)
  | st, total, nb, [] => (st, total, nb, [])
  | st, total, nb, b :: rest =>
    let r := if step then trainStep m cfg st b else valStep m st b
    let total2 := total + r.2
    let nb2 := nb + 1
    let rec2 := epochLoop m cfg step r.1 total2 nb2 rest
    (rec2.1, rec2.2.1, rec2.2.2.1, (nb2, floatDiv total2 nb2) :: rec2.2.2.2)

/-- `AdvLossModel._distributed_epoch(dataset, step, num)`: iterate the whole
dataset (the advisory count `num` is a parameter but is never read),
accumulating summed per-batch losses and the batch count, then return
`total_loss / num_batches`.  When `self.writer` is set, one
`tf.summary.image` record is written per batch. -/
def distributedEpoch (m : Model) (cfg : RunConfig) (st : TrainState)
    (dataset : List Batch) (step : Bool) (num : ℕ) : EpochResult :=
  let r := epochLoop m cfg step st 0 0 dataset
  { st := r.1
    meanLoss := floatDiv r.2.1 r.2.2.1
    progress := r.2.2.2
    summaries := if cfg.writer then dataset.length else 0 }

/-- The per-batch loss sequence an epoch produces: the loss returned by the
step executor on each successive batch, with the state threaded through. -/
def epochLosses (m : Model) (cfg : RunConfig) (step : Bool) :
    TrainState → List Batch → List ℚ
  | _, [] => []
  | st, b :: rest =>
    let r := if step then trainStep m cfg st b else valStep m st b
    r.2 :: epochLosses m cfg step r.1 rest

/-- The `logs` dict of `fit`: an insertion-ordered mapping from string keys
to loss scalars (`Option ℚ`, since a stored epoch mean can be non-finite). -/
abbrev Log := List (String × Option ℚ)

/-- Python dict assignment `logs[k] = v`: overwrite in place if the key is
present (keeping its position), else append at the end. -/
def dictSet (log : Log) (k : String) (v : Option ℚ) : Log :=
  if log.any (fun p => p.1 = k) then
    log.map (fun p => if p.1 = k then (k, v) else p)
  else
    log ++ [(k, v)]

/-- Python dict lookup `logs[k]` (as an option on absence). -/
def dictGet (log : Log) (k : String) : Option (Option ℚ) :=
  (log.find? (fun p => p.1 = k)).map Prod.snd

/-- Key list of the dict, in insertion order. -/
def dictKeys (log : Log) : List String :=
  log.map Prod.fst

/-- The dict keys used by `fit`. -/
def keyLoss : String := "loss"

/-- The validation-loss key used by `fit`. -/
def keyValLoss : String := "val_loss"

/-- A Keras-style callback as the core uses it: each hook receives the shared
mutable `logs` dict and may mutate it; we model each hook as the dict
transformation it performs (an observing callback returns the dict
unchanged). -/
structure Callback where
  onTrainBegin : Log → Log
  onEpochBegin : ℕ → Log → Log
  onEpochEnd : ℕ → Log → Log
  onTrainEnd : Log → Log

/-- A callback whose hooks mutate no log entry: each returns the dict it was
handed.  (Pure observer, e.g. a logger or checkpointer.) -/
def observerCallback (c : Callback) : Prop :=
  (∀ l, c.onTrainBegin l = l) ∧ (∀ e l, c.onEpochBegin e l = l) ∧
    (∀ e l, c.onEpochEnd e l = l) ∧ (∀ l, c.onTrainEnd l = l)

/-- One orchestrator-visible event: which hook was invoked on which callback
(by list index), and the contents of the `logs` dict at the moment that
callback received it. -/
inductive Event where
  | setModel (cb : ℕ)
  | trainBegin (cb : ℕ) (log : Log)
  | epochBegin (cb : ℕ) (epoch : ℕ) (log : Log)
  | epochEnd (cb : ℕ) (epoch : ℕ) (log : Log)
  | trainEnd (cb : ℕ) (log : Log)
deriving DecidableEq

/-- Run one lifecycle hook over the callback list in order (`for callback in
callbacks: callback.hook(logs)`): each callback sees the dict as left by the
previous one; the trace records the dict each callback received. -/
def runHook (mk : ℕ → Log → Event) :
    List (Log → Log) → ℕ → Log → Log × List Event
  | [], _, log => (log, [])
  | f :: rest, i, log =>
    let r := runHook mk rest (i + 1) (f log)
    (r.1, mk i log :: r.2)

/-- The model object as `fit` sees it: the collaborator functions, the tensor
state, and the four `self.*` configuration attributes.  Before the first
`fit` call the attributes are unset (`none`); `fit` assigns them and never
deletes them. -/
structure ModelObj where
  core : Model
  st : TrainState
  writer : Option Bool
  useEma : Option Bool
  useAdv : Option Bool
  advConfig : Option AdvConfig

/-- What a call to `fit` produces: the model object afterwards (attributes
included), the final `logs` dict, and the ordered trace of callback
invocations. -/
structure FitResult where
  model : ModelObj
  log : Log
  events : List Event

/-- The epoch loop of `fit`, over the list of epoch indices
(`for epoch in range(epochs)`): emit `on_epoch_begin` to each callback, run
a training epoch then a validation epoch through `_distributed_epoch`, store
their means under `"loss"` and `"val_loss"` in the one shared dict, emit
`on_epoch_end`.  Threads the tensor state and the dict; accumulates the
event trace. -/
def fitEpochs (m : Model) (cfg : RunConfig) (cbs : List Callback)
    (trainDs : List Batch) (trainNum : ℕ) (valDs : List Batch) (valNum : ℕ) :
    List ℕ → TrainState → Log → TrainState × Log × List Event
  | [], st, log => (st, log, [])
  | e :: rest, st, log =>
    let hb := runHook (fun i l => Event.epochBegin i e l)
      (cbs.map (fun c => c.onEpochBegin e)) 0 log
    let tr := distributedEpoch m cfg st trainDs true trainNum
    let vr := distributedEpoch m cfg tr.st valDs false valNum
    let log2 := dictSet (dictSet hb.1 keyLoss tr.meanLoss) keyValLoss vr.meanLoss
    let he := runHook (fun i l => Event.epochEnd i e l)
      (cbs.map (fun c => c.onEpochEnd e)) 0 log2
    let rec2 := fitEpochs m cfg cbs trainDs trainNum valDs valNum rest vr.st he.1
    (rec2.1, rec2.2.1, hb.2 ++ he.2 ++ rec2.2.2)

/-- `AdvLossModel.fit(epochs, callbacks, train_dataset, train_num,
val_dataset, val_num, writer=None, use_ema=False, use_adv=False,
adv_config=<default>)`: store the four configuration attributes on `self`,
bind every callback to the model (`_configure_callbacks`), create the one
`logs = {}` dict, emit `on_train_begin`, run the epoch loop, and finally emit
`on_train_end`.  Nothing is ever removed from `self` afterwards. -/
def fit (mo : ModelObj) (epochs : ℕ) (cbs : List Callback)
    (trainDs : List Batch) (trainNum : ℕ) (valDs : List Batch) (valNum : ℕ)
    (writer : Bool) (useEma : Bool) (useAdv : Bool) (advConfig : AdvConfig) :
    FitResult :=
  let cfg : RunConfig := ⟨writer, useEma, useAdv, advConfig⟩
  let setEvs := (List.range cbs.length).map Event.setModel
  let hb := runHook (fun i l => Event.trainBegin i l)
    (cbs.map (fun c => c.onTrainBegin)) 0 []
  let ep := fitEpochs mo.core cfg cbs trainDs trainNum valDs valNum
    (List.range epochs) mo.st hb.1
  let he := runHook (fun i l => Event.trainEnd i l)
    (cbs.map (fun c => c.onTrainEnd)) 0 ep.2.1
  { model :=
      { core := mo.core, st := ep.1, writer := some writer,
        useEma := some useEma, useAdv := some useAdv,
        advConfig := some advConfig }
    log := he.1
    events := setEvs ++ hb.2 ++ ep.2.2 ++ he.2 }

/-- Modelled from the spec: §4.5's per-epoch protocol as observed through
the callback hooks, for a model with `n` (observing) callbacks — each epoch
emits `on_epoch_begin` to every callback with the incoming log, runs a
training epoch then a validation epoch, writes their means under `"loss"`
and `"val_loss"`, and emits `on_epoch_end` to every callback with that
updated log.  Used as the specification side against which the trace of
`fit` is compared. -/
def specEpochTrace (m : Model) (cfg : RunConfig) (n : ℕ)
    (trainDs : List Batch) (trainNum : ℕ) (valDs : List Batch) (valNum : ℕ) :
    List ℕ → TrainState → Log → TrainState × Log × List Event
  | [], st, log => (st, log, [])
  | e :: rest, st, log =>
    let tr := distributedEpoch m cfg st trainDs true trainNum
    let vr := distributedEpoch m cfg tr.st valDs false valNum
    let log2 := dictSet (dictSet log keyLoss tr.meanLoss) keyValLoss vr.meanLoss
    let rec2 := specEpochTrace m cfg n trainDs trainNum valDs valNum rest vr.st log2
    (rec2.1, rec2.2.1,
      ((List.range n).map (fun i => Event.epochBegin i e log))
        ++ ((List.range n).map (fun i => Event.epochEnd i e log2))
        ++ rec2.2.2)

/-- The learning-rate schedule class: its four constructor parameters
(`lr`, `total_steps`, `warmup_lr`, `warmup_steps`), stored as float
scalars. -/
structure CosineLearningRateWithLinearWarmup where
  lr : ℝ
  totalSteps : ℝ
  warmupLr : ℝ
  warmupSteps : ℝ

/-- The `linear_warmup` expression of `__call__`:
`warmup_lr + global_step / warmup_steps * (lr - warmup_lr)`. -/
noncomputable def linearWarmupVal (s : CosineLearningRateWithLinearWarmup)
    (globalStep : ℝ) : ℝ :=
  s.warmupLr + globalStep / s.warmupSteps * (s.lr - s.warmupLr)

/-- The `consine_lr` expression of `__call__`:
`lr * (cos(pi * (global_step - warmup_steps) / (total_steps - warmup_steps))
+ 1.0) / 2.0`. -/
noncomputable def consineLrVal (s : CosineLearningRateWithLinearWarmup)
    (globalStep : ℝ) : ℝ :=
  s.lr * (Real.cos (Real.pi * (globalStep - s.warmupSteps) /
    (s.totalSteps - s.warmupSteps)) + 1) / 2

/-- `CosineLearningRateWithLinearWarmup.__call__(global_step)`: both branch
expressions are formed and `tf.where(global_step < warmup_steps, ...)`
selects between them. -/
noncomputable def lrScheduleCall (s : CosineLearningRateWithLinearWarmup)
    (globalStep : ℝ) : ℝ :=
  if globalStep < s.warmupSteps then linearWarmupVal s globalStep
  else consineLrVal s globalStep

/-- A minimal concrete instantiation of the external model contract, used
only to evaluate the embedded core on closed inputs: identity forward pass,
one squared-error output, constant-one gradients, gradient-descent optimizer
with unit step, adversarial term equal to the labeled loss. -/
def toyModel : Model where
  forward := fun p _ _ => p
  lossFns := [fun t y => (t - y) ^ 2]
  gradient := fun p _ _ => p.map (fun _ => 1)
  applyGradients := fun p g => (p.zip g).map (fun z => z.1 - z.2)
  advLoss := fun _ _ base => base

/-- A second concrete model with two registered loss functions, used for
the length-mismatch experiments on the Loss Aggregator. -/
def twoLossModel : Model where
  forward := fun p _ _ => p
  lossFns := [fun t y => t + y, fun t y => t + y]
  gradient := fun p _ _ => p.map (fun _ => 0)
  applyGradients := fun p _ => p
  advLoss := fun _ _ _ => 0

/-- A fresh model object (no configuration attribute set yet), with one
trainable variable and an empty EMA shadow. -/
def toyObj : ModelObj :=
  { core := toyModel, st := { params := [1], emaShadow := [] },
    writer := none, useEma := none, useAdv := none, advConfig := none }

/-- A callback that observes every hook and never touches the log. -/
def idCallback : Callback where
  onTrainBegin := fun l => l
  onEpochBegin := fun _ l => l
  onEpochEnd := fun _ l => l
  onTrainEnd := fun l => l

/-- A callback that writes an extra entry into the shared log from its
`on_epoch_end` hook (the callback contract hands it the mutable dict). -/
def addKeyCallback : Callback where
  onTrainBegin := fun l => l
  onEpochBegin := fun _ l => l
  onEpochEnd := fun _ l => dictSet l "extra" (some 1)
  onTrainEnd := fun l => l

theorem computeTotalLoss_eq_sum_lossTerms (m : Model) (yTrues yPreds : List ℚ)
    (sw : Option (List ℚ)) :
    computeTotalLoss m yTrues yPreds sw = (lossTerms m yTrues yPreds).sum := by
  simp [computeTotalLoss, lossTerms, List.foldl_eq_foldr, List.sum_eq_foldr]

theorem lossTerms_length (m : Model) (yTrues yPreds : List ℚ) :
    (lossTerms m yTrues yPreds).length =
      min yTrues.length (min yPreds.length m.lossFns.length) := by
  simp [lossTerms]

theorem idCallback_observer : observerCallback idCallback :=
  ⟨fun _ => rfl, fun _ _ => rfl, fun _ _ => rfl, fun _ => rfl⟩

theorem runHook_observer (mk : ℕ → Log → Event) (fs : List (Log → Log))
    (hfs : ∀ f ∈ fs, ∀ l, f l = l) :
    ∀ (i : ℕ) (log : Log),
      runHook mk fs i log
        = (log, (List.range fs.length).map (fun j => mk (i + j) log)) := by
  induction fs with
  | nil => intro i log; simp [runHook]
  | cons f rest ih =>
    intro i log
    have hf : f log = log := hfs f (by simp) log
    have ih2 := ih (fun g hg l => hfs g (by simp [hg]) l) (i + 1) log
    simp [runHook, hf, ih2, List.range_succ_eq_map, List.map_map]
    exact fun a _ => by rw [show i + 1 + a = i + (a + 1) by omega]

theorem fitEpochs_observer (m : Model) (cfg : RunConfig) (cbs : List Callback)
    (trainDs : List Batch) (trainNum : ℕ) (valDs : List Batch) (valNum : ℕ)
    (hobs : ∀ c ∈ cbs, observerCallback c) :
    ∀ (es : List ℕ) (st : TrainState) (log : Log),
      fitEpochs m cfg cbs trainDs trainNum valDs valNum es st log
        = specEpochTrace m cfg cbs.length trainDs trainNum valDs valNum
            es st log := by
  intro es
  induction es with
  | nil => intro st log; simp [fitEpochs, specEpochTrace]
  | cons e rest ih =>
    intro st log
    have hb := runHook_observer (fun i l => Event.epochBegin i e l)
      (cbs.map (fun c => c.onEpochBegin e))
      (fun f hf l => by
        obtain ⟨c, hc, rfl⟩ := List.mem_map.mp hf
        exact (hobs c hc).2.1 e l)
    have he := runHook_observer (fun i l => Event.epochEnd i e l)
      (cbs.map (fun c => c.onEpochEnd e))
      (fun f hf l => by
        obtain ⟨c, hc, rfl⟩ := List.mem_map.mp hf
        exact (hobs c hc).2.2.1 e l)
    simp [fitEpochs, specEpochTrace, hb, he, ih]

theorem dictKeys_set_both (log : Log) (x y : Option ℚ)
    (h : dictKeys log = [] ∨ dictKeys log = [keyLoss, keyValLoss]) :
    dictKeys (dictSet (dictSet log keyLoss x) keyValLoss y)
      = [keyLoss, keyValLoss] := by
  rcases h with h | h
  · have hnil : log = [] := by cases log <;> simp_all [dictKeys]
    subst hnil
    simp [dictSet, dictKeys, keyLoss, keyValLoss]
  · obtain ⟨p, q, rfl⟩ : ∃ p q, log = [p, q] := by
      cases log with
      | nil => simp [dictKeys] at h
      | cons p rest =>
        cases rest with
        | nil => simp [dictKeys] at h
        | cons q rest2 =>
          cases rest2 with
          | nil => exact ⟨p, q, rfl⟩
          | cons r rest3 => simp [dictKeys] at h
    simp only [dictKeys, List.map_cons, List.map_nil, List.cons.injEq,
      and_true] at h
    obtain ⟨h1, h2⟩ := h
    simp [dictSet, dictKeys, h1, h2, keyLoss, keyValLoss]

theorem specEpochTrace_epochEnd_keys (m : Model) (cfg : RunConfig) (n : ℕ)
    (trainDs : List Batch) (trainNum : ℕ) (valDs : List Batch) (valNum : ℕ) :
    ∀ (es : List ℕ) (st : TrainState) (log : Log),
      (dictKeys log = [] ∨ dictKeys log = [keyLoss, keyValLoss]) →
      ∀ (i e : ℕ) (l : Log),
        Event.epochEnd i e l
            ∈ (specEpochTrace m cfg n trainDs trainNum valDs valNum
                es st log).2.2 →
          dictKeys l = [keyLoss, keyValLoss] := by
  intro es
  induction es with
  | nil =>
    intro st log hlog i e l hmem
    simp [specEpochTrace] at hmem
  | cons e0 rest ih =>
    intro st log hlog i e l hmem
    simp only [specEpochTrace, List.mem_append] at hmem
    rcases hmem with (hmem | hmem) | hmem
    · obtain ⟨j, hj, hje⟩ := List.mem_map.mp hmem
      simp at hje
    · obtain ⟨j, hj, hje⟩ := List.mem_map.mp hmem
      obtain ⟨-, -, hl⟩ := Event.epochEnd.inj hje
      exact hl ▸ dictKeys_set_both log _ _ hlog
    · exact ih _ _ (Or.inr (dictKeys_set_both log _ _ hlog)) i e l hmem

theorem epochLoop_spec (m : Model) (cfg : RunConfig) (step : Bool)
    (ds : List Batch) :
    ∀ (st : TrainState) (t n : ℚ),
      (epochLoop m cfg step st t n ds).2.1
          = t + (epochLosses m cfg step st ds).sum
        ∧ (epochLoop m cfg step st t n ds).2.2.1 = n + (ds.length : ℚ)
        ∧ (epochLoop m cfg step st t n ds).2.2.2.length = ds.length := by
  induction ds with
  | nil => intro st t n; simp [epochLoop, epochLosses]
  | cons b rest ih =>
    intro st t n
    obtain ⟨h1, h2, h3⟩ :=
      ih (if step then trainStep m cfg st b else valStep m st b).1
        (t + (if step then trainStep m cfg st b else valStep m st b).2) (n + 1)
    refine ⟨?_, ?_, ?_⟩ <;>
      simp [epochLoop, epochLosses, h1, h2, h3] <;> ring

/-- C5: for every dataset and every advisory batch count, `_distributed_epoch`
ignores the advisory count (any two counts give identical results), consumes
the dataset to exhaustion (exactly one progress record per dataset batch,
never truncated or extended), and returns the total summed per-batch reduced
loss divided by the number of batches actually processed. -/
theorem distributedEpoch_consumes_dataset (m : Model) (cfg : RunConfig)
    (st : TrainState) (ds : List Batch) (step : Bool) (num num' : ℕ) :
    distributedEpoch m cfg st ds step num
        = distributedEpoch m cfg st ds step num'
      ∧ (distributedEpoch m cfg st ds step num).progress.length = ds.length
      ∧ (distributedEpoch m cfg st ds step num).meanLoss
          = floatDiv (epochLosses m cfg step st ds).sum (ds.length : ℚ) := by
  obtain ⟨h1, h2, h3⟩ := epochLoop_spec m cfg step ds st 0 0
  refine ⟨rfl, ?_, ?_⟩
  · simpa [distributedEpoch] using h3
  · simp [distributedEpoch, h1, h2]

/-- C10: a dataset yielding zero batches makes `_distributed_epoch` return
without error the unguarded quotient `0.0 / 0.0` — a non-finite value
(`none`), not a finite mean — and a `fit` call with empty datasets then
stores that value in the epoch log under `"loss"` and `"val_loss"`. -/
theorem distributedEpoch_empty_dataset (m : Model) (cfg : RunConfig)
    (st : TrainState) (step : Bool) (num : ℕ) :
    distributedEpoch m cfg st [] step num
        = { st := st, meanLoss := floatDiv 0 0, progress := [], summaries := 0 }
      ∧ floatDiv (0 : ℚ) 0 = none
      ∧ dictGet (fit toyObj 1 [idCallback] [] 5 [] 3 false false false
          defaultAdvConfig).log keyLoss = some none
      ∧ dictGet (fit toyObj 1 [idCallback] [] 5 [] 3 false false false
          defaultAdvConfig).log keyValLoss = some none := by
  refine ⟨by simp [distributedEpoch, epochLoop], by simp [floatDiv],
    by decide, by decide⟩

/-- C8: `_val_step` computes only predictions (forward pass with
`training=False`) and the base aggregated loss and returns that loss scalar;
the whole tensor state — every trainable parameter and the EMA shadow — is
returned unchanged, and no gradient or EMA update happens. -/
theorem valStep_pure (m : Model) (st : TrainState) (b : Batch) :
    (valStep m st b).1 = st
      ∧ (valStep m st b).2
          = computeTotalLoss m b.2 (m.forward st.params b.1 false) none :=
  ⟨rfl, rfl⟩

/-- C2 (code bug): `_train_step` constructs a NEW `ExponentialMovingAverage`
object on every call, so an EMA update never observes the shadow produced by
earlier training steps: two states with identical parameters but different
prior shadows yield identical post-step shadows, and the post-step shadow
equals the zero-debiased one-sample average — i.e. exactly the current
(post-optimizer) parameters, with no contribution from any earlier step. -/
theorem trainStep_ema_not_accumulating :
    (trainStep toyModel ⟨false, true, false, defaultAdvConfig⟩
        { params := [1], emaShadow := [5] } (0, [0])).1.emaShadow
      = (trainStep toyModel ⟨false, true, false, defaultAdvConfig⟩
          { params := [1], emaShadow := [7] } (0, [0])).1.emaShadow
    ∧ (trainStep toyModel ⟨false, true, false, defaultAdvConfig⟩
        { params := [1], emaShadow := [5] } (0, [0])).1.emaShadow
      = (trainStep toyModel ⟨false, true, false, defaultAdvConfig⟩
          { params := [1], emaShadow := [5] } (0, [0])).1.params := by
  refine ⟨?_, ?_⟩ <;>
    norm_num [trainStep, toyModel, computeTotalLoss, emaFreshApply, emaDecay]

/-- C1 counterexample: invoking `_compute_total_loss` with 2 targets,
3 predictions and the model's 2 registered loss functions does not raise any
length-mismatch error: the lengths differ and the spec-side checking
aggregator rejects the input, yet the source aggregator returns the ordinary
value `33`. -/
theorem computeTotalLoss_no_mismatch_error :
    ([(1 : ℚ), 2].length ≠ [(10 : ℚ), 20, 30].length)
      ∧ computeTotalLossSpec twoLossModel [1, 2] [10, 20, 30] = none
      ∧ computeTotalLoss twoLossModel [1, 2] [10, 20, 30] none = 33 := by
  refine ⟨by norm_num, ?_, ?_⟩ <;>
    norm_num [computeTotalLossSpec, computeTotalLoss, twoLossModel]

/-- C1 amended: `_compute_total_loss` performs no length check: Python `zip`
truncates the three sequences to the shortest, and the call returns the sum
of the per-output losses over that common prefix (in particular it returns a
value, never a length-mismatch error, on mismatched lengths). -/
theorem computeTotalLoss_truncates (m : Model) (yTrues yPreds : List ℚ)
    (sw : Option (List ℚ)) :
    computeTotalLoss m yTrues yPreds sw = (lossTerms m yTrues yPreds).sum
      ∧ (lossTerms m yTrues yPreds).length
          = min yTrues.length (min yPreds.length m.lossFns.length) :=
  ⟨computeTotalLoss_eq_sum_lossTerms m yTrues yPreds sw,
    lossTerms_length m yTrues yPreds⟩

/-- C4 counterexample: after a concrete completed `fit` call every one of
the four configuration fields is still set on the model object, holding the
value the call stored — nothing was torn down. -/
theorem fit_config_persists_after_return :
    (fit toyObj 1 [idCallback] [] 5 [] 3 false true false
        defaultAdvConfig).model.useEma = some true
      ∧ (fit toyObj 1 [idCallback] [] 5 [] 3 false true false
          defaultAdvConfig).model.writer = some false
      ∧ (fit toyObj 1 [idCallback] [] 5 [] 3 false true false
          defaultAdvConfig).model.useAdv = some false
      ∧ (fit toyObj 1 [idCallback] [] 5 [] 3 false true false
          defaultAdvConfig).model.advConfig = some defaultAdvConfig :=
  ⟨rfl, rfl, rfl, rfl⟩

/-- C4 amended: the configuration fields stored at the start of `fit`
(writer, use_ema, use_adv, adv_config) are NOT torn down when `fit` returns —
they remain set to the values that call passed; however, a later `fit` call
on the same model instance overwrites all four before reading any of them,
so its result never depends on the configuration left by an earlier call. -/
theorem fit_config_not_torn_down (mo : ModelObj) (epochs : ℕ)
    (cbs : List Callback) (trainDs : List Batch) (trainNum : ℕ)
    (valDs : List Batch) (valNum : ℕ) (w e a : Bool) (ac : AdvConfig)
    (w' e' a' : Option Bool) (ac' : Option AdvConfig) :
    (fit mo epochs cbs trainDs trainNum valDs valNum w e a ac).model.writer
        = some w
      ∧ (fit mo epochs cbs trainDs trainNum valDs valNum w e a ac).model.useEma
          = some e
      ∧ (fit mo epochs cbs trainDs trainNum valDs valNum w e a ac).model.useAdv
          = some a
      ∧ (fit mo epochs cbs trainDs trainNum valDs valNum w e a
          ac).model.advConfig = some ac
      ∧ fit ⟨mo.core, mo.st, w', e', a', ac'⟩ epochs cbs trainDs trainNum
            valDs valNum w e a ac
          = fit mo epochs cbs trainDs trainNum valDs valNum w e a ac :=
  ⟨rfl, rfl, rfl, rfl, rfl⟩

/-- C3 counterexample: with a callback that writes an `"extra"` entry into
the shared log during `on_epoch_end`, epoch 1's `on_epoch_end` receives a
log still carrying that entry written during epoch 0 — three keys instead of
exactly `"loss"` and `"val_loss"` — so the log record is not rebuilt fresh
for each epoch. -/
theorem fit_epoch_log_carries_entries_over :
    Event.epochEnd 0 1 [(keyLoss, none), (keyValLoss, none), ("extra", some 1)]
      ∈ (fit toyObj 2 [addKeyCallback] [] 0 [] 0 false false false
          defaultAdvConfig).events := by
  decide

/-- C3 amended: `fit` creates one log mapping at its start and mutates it in
place across epochs, so entries written by callbacks persist into later
epochs' logs; when no callback adds entries, the log handed to every
`on_epoch_end` contains exactly the two keys `"loss"` and `"val_loss"`
(rewritten, not rebuilt, each epoch). -/
theorem fit_epoch_log_keys (mo : ModelObj) (epochs : ℕ) (cbs : List Callback)
    (trainDs : List Batch) (trainNum : ℕ) (valDs : List Batch) (valNum : ℕ)
    (w eb a : Bool) (ac : AdvConfig)
    (hobs : ∀ c ∈ cbs, observerCallback c) :
    ∀ (i e : ℕ) (l : Log),
      Event.epochEnd i e l
          ∈ (fit mo epochs cbs trainDs trainNum valDs valNum w eb a ac).events →
        dictKeys l = [keyLoss, keyValLoss] := by
  intro i e l hmem
  have hb := runHook_observer (fun i l => Event.trainBegin i l)
    (cbs.map (fun c => c.onTrainBegin))
    (fun f hf l => by
      obtain ⟨c, hc, rfl⟩ := List.mem_map.mp hf
      exact (hobs c hc).1 l)
  have he := runHook_observer (fun i l => Event.trainEnd i l)
    (cbs.map (fun c => c.onTrainEnd))
    (fun f hf l => by
      obtain ⟨c, hc, rfl⟩ := List.mem_map.mp hf
      exact (hobs c hc).2.2.2 l)
  have hfe := fitEpochs_observer mo.core ⟨w, eb, a, ac⟩ cbs trainDs trainNum
    valDs valNum hobs
  simp only [fit, hb, he, hfe, List.mem_append] at hmem
  rcases hmem with ((hmem | hmem) | hmem) | hmem
  · obtain ⟨j, hj, hje⟩ := List.mem_map.mp hmem
    simp at hje
  · obtain ⟨j, hj, hje⟩ := List.mem_map.mp hmem
    simp at hje
  · exact specEpochTrace_epochEnd_keys mo.core ⟨w, eb, a, ac⟩ cbs.length
      trainDs trainNum valDs valNum (List.range epochs) mo.st [] (Or.inl rfl)
      i e l hmem
  · obtain ⟨j, hj, hje⟩ := List.mem_map.mp hmem
    simp at hje

/-- Witness for C3's amended theorem at a concrete run: one observing
callback, one epoch, empty datasets. -/
theorem fit_epoch_log_keys_witness :
    dictKeys [(keyLoss, none), (keyValLoss, none)] = [keyLoss, keyValLoss] :=
  fit_epoch_log_keys toyObj 1 [idCallback] [] 0 [] 0 false false false
    defaultAdvConfig
    (fun c hc => (List.mem_singleton.mp hc) ▸ idCallback_observer)
    0 0 [(keyLoss, none), (keyValLoss, none)] (by decide)

/-- C6: for every `fit` call with (non-mutating) callbacks, the callback
protocol holds — the trace is exactly: `set_model` then `on_train_begin`
(once per callback, with the empty log, before any epoch), then for each
epoch in `[0, epochs)` the spec's per-epoch protocol (`on_epoch_begin`; a
training epoch then a validation epoch through the runner, written into the
log under `"loss"` and `"val_loss"`; `on_epoch_end` with that log), then
`on_train_end` once per callback with the final log; each hook invokes the
callbacks synchronously in list order (ascending indices). -/
theorem fit_callback_protocol (mo : ModelObj) (epochs : ℕ)
    (cbs : List Callback) (trainDs : List Batch) (trainNum : ℕ)
    (valDs : List Batch) (valNum : ℕ) (w eb a : Bool) (ac : AdvConfig)
    (hobs : ∀ c ∈ cbs, observerCallback c) :
    (fit mo epochs cbs trainDs trainNum valDs valNum w eb a ac).events
        = (List.range cbs.length).map Event.setModel
          ++ (List.range cbs.length).map (fun i => Event.trainBegin i [])
          ++ (specEpochTrace mo.core ⟨w, eb, a, ac⟩ cbs.length trainDs
              trainNum valDs valNum (List.range epochs) mo.st []).2.2
          ++ (List.range cbs.length).map (fun i => Event.trainEnd i
              (specEpochTrace mo.core ⟨w, eb, a, ac⟩ cbs.length trainDs
                trainNum valDs valNum (List.range epochs) mo.st []).2.1)
      ∧ (fit mo epochs cbs trainDs trainNum valDs valNum w eb a ac).log
          = (specEpochTrace mo.core ⟨w, eb, a, ac⟩ cbs.length trainDs
              trainNum valDs valNum (List.range epochs) mo.st []).2.1 := by
  have hb := runHook_observer (fun i l => Event.trainBegin i l)
    (cbs.map (fun c => c.onTrainBegin))
    (fun f hf l => by
      obtain ⟨c, hc, rfl⟩ := List.mem_map.mp hf
      exact (hobs c hc).1 l)
  have he := runHook_observer (fun i l => Event.trainEnd i l)
    (cbs.map (fun c => c.onTrainEnd))
    (fun f hf l => by
      obtain ⟨c, hc, rfl⟩ := List.mem_map.mp hf
      exact (hobs c hc).2.2.2 l)
  have hfe := fitEpochs_observer mo.core ⟨w, eb, a, ac⟩ cbs trainDs trainNum
    valDs valNum hobs
  constructor <;> simp [fit, hb, he, hfe]

/-- Witness for C6 at a concrete run: one observing callback, two epochs,
one training batch, no validation batches. -/
theorem fit_callback_protocol_witness :
    (fit toyObj 2 [idCallback] [(0, [1])] 1 [] 0 false false false
        defaultAdvConfig).events
        = (List.range 1).map Event.setModel
          ++ (List.range 1).map (fun i => Event.trainBegin i [])
          ++ (specEpochTrace toyObj.core ⟨false, false, false,
              defaultAdvConfig⟩ 1 [(0, [1])] 1 [] 0 (List.range 2) toyObj.st
              []).2.2
          ++ (List.range 1).map (fun i => Event.trainEnd i
              (specEpochTrace toyObj.core ⟨false, false, false,
                defaultAdvConfig⟩ 1 [(0, [1])] 1 [] 0 (List.range 2) toyObj.st
                []).2.1)
      ∧ (fit toyObj 2 [idCallback] [(0, [1])] 1 [] 0 false false false
          defaultAdvConfig).log
          = (specEpochTrace toyObj.core ⟨false, false, false,
              defaultAdvConfig⟩ 1 [(0, [1])] 1 [] 0 (List.range 2) toyObj.st
              []).2.1 :=
  fit_callback_protocol toyObj 2 [idCallback] [(0, [1])] 1 [] 0 false false
    false defaultAdvConfig
    (fun c hc => (List.mem_singleton.mp hc) ▸ idCallback_observer)

/-- C7 counterexample: the claim quantifies over every quadruple with
`warmup_steps < total_steps`, but at `warmup_steps = 0` — e.g.
`(lr, total_steps, warmup_lr, warmup_steps) = (1, 10, 0, 0)` — the
linear-warmup formula evaluated at `global_step = warmup_steps` involves a
division by `warmup_steps = 0` and does not equal `lr = 1`. -/
theorem lrSchedule_boundary_fails_at_zero_warmup :
    (0 : ℝ) < 10 ∧ linearWarmupVal ⟨1, 10, 0, 0⟩ 0 ≠ 1 := by
  constructor
  · norm_num
  · norm_num [linearWarmupVal]

/-- C7 amended: for every quadruple with `warmup_steps ≠ 0` and
`warmup_steps < total_steps`, the two schedule pieces meet at the boundary:
at `global_step = warmup_steps` the linear-warmup formula equals `lr`, the
cosine formula equals `lr`, and the branch `tf.where` selects there yields
the same value as the other branch. -/
theorem lrSchedule_boundary_continuity (lr ts wl ws : ℝ)
    (hw : ws ≠ 0) (hlt : ws < ts) :
    linearWarmupVal ⟨lr, ts, wl, ws⟩ ws = lr
      ∧ consineLrVal ⟨lr, ts, wl, ws⟩ ws = lr
      ∧ lrScheduleCall ⟨lr, ts, wl, ws⟩ ws
          = linearWarmupVal ⟨lr, ts, wl, ws⟩ ws := by
  have h1 : linearWarmupVal ⟨lr, ts, wl, ws⟩ ws = lr := by
    unfold linearWarmupVal
    rw [div_self hw]
    ring
  have h2 : consineLrVal ⟨lr, ts, wl, ws⟩ ws = lr := by
    unfold consineLrVal
    simp
    ring
  refine ⟨h1, h2, ?_⟩
  rw [lrScheduleCall, if_neg (lt_irrefl ws), h1, h2]

/-- Witness for C7's amended theorem at
`(lr, total_steps, warmup_lr, warmup_steps) = (1, 10, 0, 5)`. -/
theorem lrSchedule_boundary_continuity_witness :
    (5 : ℝ) ≠ 0 ∧ (5 : ℝ) < 10
      ∧ (linearWarmupVal ⟨1, 10, 0, 5⟩ 5 = 1
          ∧ consineLrVal ⟨1, 10, 0, 5⟩ 5 = 1
          ∧ lrScheduleCall ⟨1, 10, 0, 5⟩ 5 = linearWarmupVal ⟨1, 10, 0, 5⟩ 5) :=
  ⟨by norm_num, by norm_num,
    lrSchedule_boundary_continuity 1 10 0 5 (by norm_num) (by norm_num)⟩

/-- C9: with `warmup_lr < lr` and `warmup_steps > 0`, the schedule is
monotonically non-decreasing on `[0, warmup_steps)`: for any
`0 ≤ s1 ≤ s2 < warmup_steps`, `schedule(s1) ≤ schedule(s2)`. -/
theorem lrSchedule_warmup_monotone (lr ts wl ws s1 s2 : ℝ)
    (hwl : wl < lr) (hws : 0 < ws) (h0 : 0 ≤ s1) (h12 : s1 ≤ s2)
    (h2 : s2 < ws) :
    lrScheduleCall ⟨lr, ts, wl, ws⟩ s1 ≤ lrScheduleCall ⟨lr, ts, wl, ws⟩ s2 := by
  have hs1 : s1 < ws := lt_of_le_of_lt h12 h2
  rw [lrScheduleCall, if_pos hs1, lrScheduleCall, if_pos h2]
  unfold linearWarmupVal
  have hge : (0 : ℝ) ≤ lr - wl := by linarith
  have hdiv : s1 / ws ≤ s2 / ws := by
    apply div_le_div_of_nonneg_right h12 hws.le
  have := mul_le_mul_of_nonneg_right hdiv hge
  simp only
  linarith

/-- Witness for C9 at `(lr, total_steps, warmup_lr, warmup_steps) =
(1, 20, 0, 10)` with steps `2 ≤ 3 < 10`. -/
theorem lrSchedule_warmup_monotone_witness :
    (0 : ℝ) < 1 ∧ (0 : ℝ) < 10 ∧ (0 : ℝ) ≤ 2 ∧ (2 : ℝ) ≤ 3 ∧ (3 : ℝ) < 10
      ∧ lrScheduleCall ⟨1, 20, 0, 10⟩ 2 ≤ lrScheduleCall ⟨1, 20, 0, 10⟩ 3 :=
  ⟨by norm_num, by norm_num, by norm_num, by norm_num, by norm_num,
    lrSchedule_warmup_monotone 1 20 0 10 2 3 (by norm_num) (by norm_num)
      (by norm_num) (by norm_num) (by norm_num)⟩

end YoloTrain
